import Mathlib

/-!
Verification development for the core-reconciler repository (react-notes).

The definitions below are a shallow embedding of the JavaScript sources:

* `ReactFiberLane`-style bitmask algebra (`mergeLanes`, `removeLanes`,
  `isSubsetOfLanes`) — machine integers are modelled as `Nat` bitmasks.
* the class-component update queue of `src/unnamed/part_001`
  (`createUpdate`, `enqueueUpdate`, `processUpdateQueue`,
  `getStateFromUpdate`),
* `createWorkInProgress` of `ReactFiber.js`,
* the concurrent-update bookkeeping of `ReactFiberConcurrentUpdates.js`,
* the entry guard and mode selection of `performWorkOnRoot`
  (`ReactFiberWorkLoop.js`) and `performSyncWorkOnRoot`
  (`ReactFiberRootScheduler.js`).

JavaScript linked lists are modelled as Lean lists (the circular
`shared.pending` list in FIFO order); JS objects used as component state
are modelled as field lists (`JSVal`); opaque references (instances, DOM
handles) are modelled as `Nat` handles with `0` playing the role of
`null` where the field is never consulted.
-/

namespace React

/-! ## Lane algebra (`ReactFiberLane`) -/

abbrev Lanes := Nat
abbrev Lane := Nat

def NoLanes : Lanes := 0
def NoLane : Lane := 0

/-- Constant `OffscreenLane = 0b1000000000000000000000000000000`; the constant is not
among the excerpted sources, the value is the 31-bit mask position the spec
assigns to the (single, lowest-priority) offscreen lane. -/
def OffscreenLane : Lane := 0b1000000000000000000000000000000

def mergeLanes (a b : Lanes) : Lanes := a ||| b

/-- Source `removeLanes(set, subset) = set & ~subset`.  On `Nat` (no bitwise
complement) the same function is `set ^^^ (set &&& subset)`: bits of `set`
also present in `subset` are cleared, all other bits kept. -/
def removeLanes (set subset : Lanes) : Lanes := set ^^^ (set &&& subset)

def intersectLanes (a b : Lanes) : Lanes := a &&& b

/-- Source `isSubsetOfLanes(set, subset) = (set & subset) === subset`. -/
def isSubsetOfLanes (set subset : Lanes) : Bool := (set &&& subset) == subset

/-! ### Bitwise facts used throughout -/

theorem removeLanes_land_self (a b : Nat) : removeLanes a b &&& b = 0 := by
  unfold removeLanes
  apply Nat.eq_of_testBit_eq
  intro i
  simp only [Nat.testBit_and, Nat.testBit_xor, Nat.zero_testBit]
  cases a.testBit i <;> cases b.testBit i <;> rfl

theorem removeLanes_of_land_eq_zero {a b : Nat} (h : a &&& b = 0) :
    removeLanes a b = a := by
  unfold removeLanes
  rw [h, Nat.xor_zero]

theorem removeLanes_idem (a b : Nat) :
    removeLanes (removeLanes a b) b = removeLanes a b :=
  removeLanes_of_land_eq_zero (removeLanes_land_self a b)

theorem isSubsetOfLanes_merge (a l : Lanes) :
    isSubsetOfLanes (mergeLanes a l) l = true := by
  unfold isSubsetOfLanes mergeLanes
  rw [beq_iff_eq]
  apply Nat.eq_of_testBit_eq
  intro i
  simp only [Nat.testBit_and, Nat.testBit_or]
  cases a.testBit i <;> cases l.testBit i <;> rfl

theorem isSubsetOfLanes_merge_of_subset {a l : Lanes} (x : Lanes)
    (h : isSubsetOfLanes a l = true) :
    isSubsetOfLanes (mergeLanes a x) l = true := by
  unfold isSubsetOfLanes mergeLanes at *
  rw [beq_iff_eq] at *
  apply Nat.eq_of_testBit_eq
  intro i
  have hb := congrArg (fun n => n.testBit i) h
  simp only [Nat.testBit_and, Nat.testBit_or] at *
  cases ha : a.testBit i <;> cases hl : l.testBit i <;>
    simp_all

theorem isSubsetOfLanes_zero (a : Lanes) : isSubsetOfLanes a 0 = true := by
  unfold isSubsetOfLanes
  rw [beq_iff_eq]
  apply Nat.eq_of_testBit_eq
  intro i
  simp only [Nat.testBit_and, Nat.zero_testBit, Bool.and_false]

/-! ## Fiber flags (`ReactFiberFlags.js`), values copied bit for bit -/

abbrev Flags := Nat

def NoFlags : Flags := 0b0000000000000000000000000000000
def Callback : Flags := 0b0000000000000000000000001000000
def DidCapture : Flags := 0b0000000000000000000000010000000
def Visibility : Flags := 0b0000000000000000010000000000000
def ShouldCapture : Flags := 0b0000000000000010000000000000000
def SnapshotStatic : Flags := 0b0000000001000000000000000000000
def LayoutStatic : Flags := 0b0000000010000000000000000000000
def RefStatic : Flags := LayoutStatic
def PassiveStatic : Flags := 0b0000000100000000000000000000000
def MaySuspendCommit : Flags := 0b0000001000000000000000000000000
def ViewTransitionNamedStatic : Flags := SnapshotStatic ||| MaySuspendCommit
def ViewTransitionStatic : Flags := 0b0000010000000000000000000000000

def StaticMask : Flags :=
  LayoutStatic ||| PassiveStatic ||| RefStatic ||| MaySuspendCommit |||
    ViewTransitionStatic ||| ViewTransitionNamedStatic

/-! ## JavaScript state values

Class-component state is a JS object (or `null`).  Objects are modelled as
lists of (field, value) pairs over `Nat` field names and `Nat` values;
`Object.assign({}, prev, partial)` becomes `assign`. -/

abbrev Fields := List (Nat × Nat)

inductive JSVal where
  | jnull
  | jobj (fields : Fields)
deriving DecidableEq, Repr

/-- Overwrite field `kv.1` in place, or append it — the field-ordering
behaviour of JS property assignment. -/
def setField : Fields → Nat × Nat → Fields
  | [], kv => [kv]
  | f :: rest, kv => if f.1 = kv.1 then kv :: rest else f :: setField rest kv

def objFields : JSVal → Fields
  | .jnull => []
  | .jobj fs => fs

/-- Source `assign({}, prevState, partial)`: shallow field-wise union, fields of
`partial` win.  A `null` operand contributes no fields. -/
def assign (prevState part : JSVal) : JSVal :=
  .jobj ((objFields part).foldl setField (objFields prevState))

/-! ## The update queue (`src/unnamed/part_001`) -/

def UpdateState : Nat := 0
def ReplaceState : Nat := 1
def ForceUpdate : Nat := 2
def CaptureUpdate : Nat := 3

/-- Field `Update.payload`: either a value (possibly `null`) or a function of
`(prevState, nextProps)`.  The `this = instance` binding of the JS call is
part of the modelled closure. -/
inductive Payload where
  | pval (v : JSVal)
  | pfn (f : JSVal → JSVal → JSVal)

/-- Record `Update<State>`: callbacks are opaque, kept as `Nat` handles.  The
`next` pointer of the JS record is represented by list structure. -/
structure Update where
  lane : Lane
  tag : Nat
  payload : Payload
  callback : Option Nat

/-- Record `UpdateQueue<State>`: `baseUpdates` is the linear
`firstBaseUpdate .. lastBaseUpdate` chain, `pending` is `shared.pending`
(a circular list in the source, kept here in FIFO order). -/
structure UpdateQueue where
  baseState : JSVal
  baseUpdates : List Update
  pending : List Update
  callbacks : List Nat

/-- Source `initializeUpdateQueue`. -/
def initializeUpdateQueue (memoizedState : JSVal) : UpdateQueue :=
  { baseState := memoizedState, baseUpdates := [], pending := [], callbacks := [] }

/-- Source `createUpdate(lane)`. -/
def createUpdate (lane : Lane) : Update :=
  { lane := lane, tag := UpdateState, payload := .pval .jnull, callback := none }

/-- The fields of the work-in-progress fiber read and written by
`processUpdateQueue`. -/
structure FiberView where
  flags : Flags
  lanes : Lanes
  memoizedState : JSVal
deriving Repr

/-- Source `getStateFromUpdate(workInProgress, queue, update, prevState, nextProps,
instance)` — the `UpdateState` body shared by the `CaptureUpdate`
fall-through.  Returns the new flags, the `hasForceUpdate` flag and the new
state. -/
def applyUpdateStatePayload (u : Update) (prevState nextProps : JSVal) : JSVal :=
  let partState :=
    match u.payload with
    | .pfn f => f prevState nextProps
    | .pval v => v
  match partState with
  | .jnull => prevState
  | .jobj _ => assign prevState partState

def getStateFromUpdate (flags : Flags) (hasForceUpdate : Bool) (u : Update)
    (prevState nextProps : JSVal) : Flags × Bool × JSVal :=
  if u.tag = ReplaceState then
    match u.payload with
    | .pfn f => (flags, hasForceUpdate, f prevState nextProps)
    | .pval v => (flags, hasForceUpdate, v)
  else if u.tag = CaptureUpdate then
    (removeLanes flags ShouldCapture ||| DidCapture, hasForceUpdate,
      applyUpdateStatePayload u prevState nextProps)
  else if u.tag = UpdateState then
    (flags, hasForceUpdate, applyUpdateStatePayload u prevState nextProps)
  else if u.tag = ForceUpdate then
    (flags, true, prevState)
  else
    (flags, hasForceUpdate, prevState)

/-- The state component of `getStateFromUpdate` (independent of the flag
arguments). -/
def stateOfUpdate (nextProps prevState : JSVal) (u : Update) : JSVal :=
  (getStateFromUpdate NoFlags false u prevState nextProps).2.2

/-- The skip test of the `processUpdateQueue` loop:
`updateLane = removeLanes(update.lane, OffscreenLane)`,
`isHiddenUpdate = updateLane !== update.lane`, and hidden updates are
checked against the work-in-progress root render lanes. -/
def shouldSkipUpdate (renderLanes wipRootRenderLanes : Lanes) (u : Update) : Bool :=
  let updateLane := removeLanes u.lane OffscreenLane
  let isHiddenUpdate := u.lane != updateLane
  if isHiddenUpdate then !(isSubsetOfLanes wipRootRenderLanes updateLane)
  else !(isSubsetOfLanes renderLanes updateLane)

/-- The clone built for a skipped update (keeps tag, payload, callback;
lane is the update lane with `OffscreenLane` removed). -/
def cloneSkipped (u : Update) : Update :=
  { lane := removeLanes u.lane OffscreenLane, tag := u.tag,
    payload := u.payload, callback := u.callback }

/-- The clone built for an update applied after the first skip
(`lane: NoLane`, `callback: null`). -/
def cloneApplied (u : Update) : Update :=
  { lane := NoLane, tag := u.tag, payload := u.payload, callback := none }

/-- The loop accumulator of `processUpdateQueue` (the local variables
`newState`, `newLanes`, `newBaseState`, `newFirstBaseUpdate ..
newLastBaseUpdate`, the flags written to `workInProgress`, the module
globals `hasForceUpdate` / `didReadFromEntangledAsyncAction`, and
`queue.callbacks`). -/
structure LoopSt where
  newState : JSVal
  newLanes : Lanes
  newBaseState : Option JSVal
  newBaseUpdates : List Update
  flags : Flags
  hasForceUpdate : Bool
  didReadFromEntangledAsyncAction : Bool
  callbacks : List Nat

/-- One iteration of the `do … while` walk over the base list
(lines 233–312 of `processUpdateQueue`).  `entangledActionLane` stands for
`peekEntangledActionLane()`. -/
def stepUpdate (nextProps : JSVal) (renderLanes wipRootRenderLanes : Lanes)
    (entangledActionLane : Lane) (st : LoopSt) (u : Update) : LoopSt :=
  let updateLane := removeLanes u.lane OffscreenLane
  let isHiddenUpdate := u.lane != updateLane
  if shouldSkipUpdate renderLanes wipRootRenderLanes u then
    let st :=
      if st.newBaseUpdates.isEmpty then
        { st with newBaseUpdates := [cloneSkipped u],
                  newBaseState := some st.newState }
      else
        { st with newBaseUpdates := st.newBaseUpdates ++ [cloneSkipped u] }
    { st with newLanes := mergeLanes st.newLanes updateLane }
  else
    let st :=
      if updateLane != NoLane && updateLane == entangledActionLane then
        { st with didReadFromEntangledAsyncAction := true }
      else st
    let st :=
      if st.newBaseUpdates.isEmpty then st
      else { st with newBaseUpdates := st.newBaseUpdates ++ [cloneApplied u] }
    let r := getStateFromUpdate st.flags st.hasForceUpdate u st.newState nextProps
    let st := { st with flags := r.1, hasForceUpdate := r.2.1, newState := r.2.2 }
    match u.callback with
    | none => st
    | some cb =>
        { st with
          flags := (st.flags ||| Callback) |||
            (if isHiddenUpdate then Visibility else NoFlags),
          callbacks := st.callbacks ++ [cb] }

/-- Everything `processUpdateQueue` writes: the fiber fields, the queue,
the argument of `markSkippedUpdateLanes` (absent when the base list was
empty and the call never happens), and the module globals. -/
structure ProcessResult where
  fiber : FiberView
  queue : UpdateQueue
  markSkippedUpdateLanes : Option Lanes
  hasForceUpdate : Bool
  didReadFromEntangledAsyncAction : Bool

/-- Source `processUpdateQueue(workInProgress, props, instance, renderLanes)`.

`renderPhasePending` models the contents of `shared.pending` observed by
the re-check at lines 316–331: updates appended to the currently rendering
fiber while the loop was draining (render-phase updates).  The structural
sharing with the alternate queue (lines 202–216) mutates only the
alternate and is not modelled. -/
def processUpdateQueue (workInProgress : FiberView) (queue : UpdateQueue)
    (nextProps : JSVal) (renderLanes wipRootRenderLanes : Lanes)
    (entangledActionLane : Lane) (renderPhasePending : List Update) :
    ProcessResult :=
  let firstBaseUpdate := queue.baseUpdates ++ queue.pending
  if firstBaseUpdate.isEmpty then
    { fiber := workInProgress
      queue := { queue with pending := [] }
      markSkippedUpdateLanes := none
      hasForceUpdate := false
      didReadFromEntangledAsyncAction := false }
  else
    let st0 : LoopSt :=
      { newState := queue.baseState, newLanes := NoLanes, newBaseState := none,
        newBaseUpdates := [], flags := workInProgress.flags,
        hasForceUpdate := false, didReadFromEntangledAsyncAction := false,
        callbacks := queue.callbacks }
    let st1 := List.foldl
      (stepUpdate nextProps renderLanes wipRootRenderLanes entangledActionLane)
      st0 firstBaseUpdate
    let st2 := List.foldl
      (stepUpdate nextProps renderLanes wipRootRenderLanes entangledActionLane)
      st1 renderPhasePending
    let newBaseState :=
      if st2.newBaseUpdates.isEmpty then st2.newState
      else st2.newBaseState.getD st2.newState
    { fiber := { flags := st2.flags, lanes := st2.newLanes,
                 memoizedState := st2.newState }
      queue := { baseState := newBaseState, baseUpdates := st2.newBaseUpdates,
                 pending := [], callbacks := st2.callbacks }
      markSkippedUpdateLanes := some st2.newLanes
      hasForceUpdate := st2.hasForceUpdate
      didReadFromEntangledAsyncAction := st2.didReadFromEntangledAsyncAction }

/-! ### Reference functions for the rebase discipline (spec §4.3)

These restate, in the spec's words, what the loop is claimed to produce:
the new base list keeps every update from the first skipped one onward
(skipped ones cloned with their update lane and callback, applied ones
cloned with `lane = NoLane`, `callback = null`), and the new base state is
the state accumulated up to the first skipped update. -/

def rebaseTail (renderLanes wipRootRenderLanes : Lanes) (us : List Update) :
    List Update :=
  us.map fun v =>
    if shouldSkipUpdate renderLanes wipRootRenderLanes v then cloneSkipped v
    else cloneApplied v

def rebaseBaseList (renderLanes wipRootRenderLanes : Lanes) :
    List Update → List Update
  | [] => []
  | u :: rest =>
      if shouldSkipUpdate renderLanes wipRootRenderLanes u then
        cloneSkipped u :: rebaseTail renderLanes wipRootRenderLanes rest
      else rebaseBaseList renderLanes wipRootRenderLanes rest

def rebaseBaseState (nextProps : JSVal) (renderLanes wipRootRenderLanes : Lanes)
    (s : JSVal) : List Update → JSVal
  | [] => s
  | u :: rest =>
      if shouldSkipUpdate renderLanes wipRootRenderLanes u then s
      else rebaseBaseState nextProps renderLanes wipRootRenderLanes
        (stateOfUpdate nextProps s u) rest

/-- Applying a list of updates in order to a state (the single-render
reference semantics). -/
def applyUpdates (nextProps : JSVal) (s : JSVal) (us : List Update) : JSVal :=
  us.foldl (fun acc u => stateOfUpdate nextProps acc u) s

/-- Loop invariant: a skipped update has been seen (the new base list is
non-empty) exactly when `newBaseState` has been recorded. -/
def loopInv (st : LoopSt) : Prop :=
  st.newBaseUpdates.isEmpty = st.newBaseState.isNone

/-- The base state `processUpdateQueue` commits from a final loop state
(`newBaseState = newState` when nothing was skipped). -/
def loopBase (st : LoopSt) : JSVal :=
  if st.newBaseUpdates.isEmpty then st.newState else st.newBaseState.getD st.newState

/-- Replaying the accumulated base list from the accumulated base state —
the state a later render that skips nothing would reach. -/
def baseReplay (nextProps : JSVal) (st : LoopSt) : JSVal :=
  applyUpdates nextProps (loopBase st) st.newBaseUpdates

/-! ## Execution context (`ReactFiberWorkLoop.js`)

Modelled from the spec: the execution context is a process-wide bitmask
with render and commit bits; the bit values themselves are not among the
excerpted sources. -/

def NoContext : Nat := 0b000
def BatchedContext : Nat := 0b001
def RenderContext : Nat := 0b010
def CommitContext : Nat := 0b100

def shouldNotAlreadyBeWorking : String := "Should not already be working."

/-- The entry guard of `performWorkOnRoot` (lines 126–128 of
`ReactFiberWorkLoop.js`): throw when already inside the render or commit
context. -/
def performWorkOnRootGuard (executionContext : Nat) : Except String Unit :=
  if (executionContext &&& (RenderContext ||| CommitContext)) != NoContext then
    Except.error shouldNotAlreadyBeWorking
  else
    Except.ok ()

/-! ## Mode selection of `performWorkOnRoot` (`ReactFiberWorkLoop.js`)

The predicates `includesBlockingLane`, `includesExpiredLane` and
`checkIfRootIsPrerendering` and the feature flag
`enableSiblingPrerendering` are not among the excerpted sources; they
enter as boolean parameters, which is all the mode selection consults. -/

def shouldTimeSlice (forceSync includesBlockingLane includesExpiredLane
    enableSiblingPrerendering checkIfRootIsPrerendering : Bool) : Bool :=
  (!forceSync && !includesBlockingLane && !includesExpiredLane) ||
    (enableSiblingPrerendering && checkIfRootIsPrerendering)

/-- The mode-selection formula exactly as the spec and the claim state it
(no prerendering disjunct). -/
def shouldTimeSliceClaim (forceSync includesBlockingLane includesExpiredLane :
    Bool) : Bool :=
  !forceSync && !includesBlockingLane && !includesExpiredLane

inductive RenderMode where
  | concurrent
  | sync
deriving DecidableEq, Repr

/-- The render-mode choice of `performWorkOnRoot`
(`shouldTimeSlice ? renderRootConcurrent : renderRootSync`). -/
def performWorkOnRootMode (forceSync includesBlockingLane includesExpiredLane
    enableSiblingPrerendering checkIfRootIsPrerendering : Bool) : RenderMode :=
  if shouldTimeSlice forceSync includesBlockingLane includesExpiredLane
      enableSiblingPrerendering checkIfRootIsPrerendering then
    RenderMode.concurrent
  else
    RenderMode.sync

/-! ## The sync flush (`ReactFiberRootScheduler.js`) -/

/-- The process state consulted by `performSyncWorkOnRoot`: whether
passive effects are still pending. -/
structure SyncWorkState where
  pendingPassiveEffects : Bool
deriving DecidableEq, Repr

/-- Observable actions of `performSyncWorkOnRoot`. -/
inductive SyncEvent where
  | flushPassiveEffects
  | performWorkOnRoot (rootId : Nat) (lanes : Lanes) (forceSync : Bool)
deriving DecidableEq, Repr

def isPerformWorkEvent : SyncEvent → Bool
  | .performWorkOnRoot _ _ _ => true
  | _ => false

/-- Modelled from the spec: `flushPendingEffects` (the work-loop function
called at line 335 of `ReactFiberRootScheduler.js` is not among the
excerpted sources) runs any pending passive effects and reports whether it
did so. -/
def flushPendingEffects (s : SyncWorkState) : Bool × SyncWorkState × List SyncEvent :=
  if s.pendingPassiveEffects then
    (true, { pendingPassiveEffects := false }, [SyncEvent.flushPassiveEffects])
  else
    (false, s, [])

/-- Source `performSyncWorkOnRoot(root, lanes)` (lines 333–351): flush
pending passive effects; if that flushed anything, return `null`
immediately; otherwise call `performWorkOnRoot(root, lanes, forceSync)`
with `forceSync = true`.  (The dev-only profiler branch is omitted.) -/
def performSyncWorkOnRoot (s : SyncWorkState) (rootId : Nat) (lanes : Lanes) :
    SyncWorkState × List SyncEvent :=
  let r := flushPendingEffects s
  if r.1 then
    (r.2.1, r.2.2)
  else
    let forceSync := true
    (r.2.1, r.2.2 ++ [SyncEvent.performWorkOnRoot rootId lanes forceSync])

/-! ## Concurrent enqueue (`ReactFiberConcurrentUpdates.js` and
`enqueueUpdate` of `src/unnamed/part_001`)

The state below is the part of the world the enqueue path touches for a
single target fiber: its update queue (absent when unmounted), its
`lanes`, its alternate's `lanes` (absent when there is no alternate), the
`childLanes` of the fibers on its return path, whether the walk ends at a
`HostRoot`, and the process-wide concurrent-update bookkeeping. -/

structure EnqState where
  updateQueue : Option UpdateQueue
  fiberLanes : Lanes
  alternateLanes : Option Lanes
  ancestorChildLanes : List Lanes
  hasHostRoot : Bool
  concurrentQueues : List (Update × Lane)
  concurrentlyUpdatedLanes : Lanes

/-- Source `isUnsafeClassRenderPhaseUpdate(fiber)`. -/
def isUnsafeClassRenderPhaseUpdate (executionContext : Nat) : Bool :=
  (executionContext &&& RenderContext) != NoContext

namespace ConcurrentUpdates

/-- The module-private `enqueueUpdate(fiber, queue, update, lane)` of
`ReactFiberConcurrentUpdates.js`: stash the update in the flat
`concurrentQueues` array, merge the lane into `concurrentlyUpdatedLanes`,
into `fiber.lanes`, and into `fiber.alternate.lanes` when the alternate
exists.  It does not touch any `childLanes`. -/
def enqueueUpdate (s : EnqState) (update : Update) (lane : Lane) : EnqState :=
  { s with
    concurrentQueues := s.concurrentQueues ++ [(update, lane)]
    concurrentlyUpdatedLanes := mergeLanes s.concurrentlyUpdatedLanes lane
    fiberLanes := mergeLanes s.fiberLanes lane
    alternateLanes := s.alternateLanes.map fun al => mergeLanes al lane }

end ConcurrentUpdates

/-- Source `getRootForUpdatedFiber(sourceFiber)`: walk the return path (it
mutates nothing) and hand back the `FiberRoot` when the top is a
`HostRoot`.  The infinite-loop and unmounted-fiber checks are dev-only
diagnostics. -/
def getRootForUpdatedFiber (s : EnqState) : Option Unit :=
  if s.hasHostRoot then some () else none

/-- Source `enqueueConcurrentClassUpdate(fiber, queue, update, lane)`. -/
def enqueueConcurrentClassUpdate (s : EnqState) (update : Update) (lane : Lane) :
    Option Unit × EnqState :=
  let s1 := ConcurrentUpdates.enqueueUpdate s update lane
  (getRootForUpdatedFiber s1, s1)

/-- Modelled from the spec: `unsafe_markUpdateLaneFromFiberToRoot` (called
by the render-phase branch of `enqueueUpdate` in `src/unnamed/part_001`
but not among the excerpted sources) updates `childLanes` on the ancestors
and returns the root by walking parent pointers. -/
def renderPhaseMarkUpdateLaneFromFiberToRoot (s : EnqState) (lane : Lane) :
    Option Unit × EnqState :=
  let s1 := { s with
    ancestorChildLanes := s.ancestorChildLanes.map fun cl => mergeLanes cl lane }
  (getRootForUpdatedFiber s1, s1)

/-- Source `enqueueUpdate(fiber, update, lane)` of `src/unnamed/part_001`:
`null` update queue means the fiber unmounted — drop silently; a
render-phase update is appended to `shared.pending` directly (circular
list, FIFO order here); otherwise defer to
`enqueueConcurrentClassUpdate`. -/
def enqueueUpdate (s : EnqState) (update : Update) (lane : Lane)
    (executionContext : Nat) : Option Unit × EnqState :=
  match s.updateQueue with
  | none => (none, s)
  | some updateQueue =>
      if isUnsafeClassRenderPhaseUpdate executionContext then
        let s1 := { s with
          updateQueue := some
            { updateQueue with pending := updateQueue.pending ++ [update] } }
        renderPhaseMarkUpdateLaneFromFiberToRoot s1 lane
      else
        enqueueConcurrentClassUpdate s update lane

/-- Modelled from the spec: one step of the drain performed by
`finishQueueingConcurrentUpdates` — append the stashed update to the
queue's `shared.pending` list and propagate its lane into `childLanes` of
every ancestor on the path to the root
(`markUpdateLaneFromFiberToRoot`). -/
def finishStep (acc : EnqState) (entry : Update × Lane) : EnqState :=
  { acc with
    updateQueue := acc.updateQueue.map
      fun q => { q with pending := q.pending ++ [entry.1] }
    ancestorChildLanes := acc.ancestorChildLanes.map
      fun cl => mergeLanes cl entry.2 }

/-- Modelled from the spec: `finishQueueingConcurrentUpdates` (referenced
from `prepareFreshStack` and the render loops, not among the excerpted
sources) drains the `concurrentQueues` array entry by entry
(`finishStep`) and resets it. -/
def finishQueueingConcurrentUpdates (s : EnqState) : EnqState :=
  let s1 := s.concurrentQueues.foldl finishStep s
  { s1 with concurrentQueues := [] }

/-! ## `createWorkInProgress` (`ReactFiber.js`)

Opaque references (`elementType`, `type`, `stateNode`, `memoizedProps`,
props, the update queue, refs, children) are `Nat` handles, `0` for
`null`.  The `dependencies` record is a (lanes, firstContext-handle)
pair.  The `alternate` back pointer of `current` is passed explicitly as
`currentAlternate`; the dev-only `_debug*` fields and the
profiler-timer fields (behind `enableProfilerTimer`) are omitted. -/

structure Fiber where
  tag : Nat
  key : Option Nat
  mode : Nat
  elementType : Nat
  type : Nat
  stateNode : Nat
  pendingProps : Nat
  flags : Flags
  subtreeFlags : Flags
  deletions : Option (List Nat)
  childLanes : Lanes
  lanes : Lanes
  child : Option Nat
  sibling : Option Nat
  index : Nat
  memoizedProps : Nat
  memoizedState : Nat
  updateQueue : Nat
  dependencies : Option (Lanes × Nat)
  ref : Nat
  refCleanup : Nat
deriving DecidableEq, Repr

/-- Source `FiberNode` constructor (`createFiber`). -/
def createFiber (tag : Nat) (pendingProps : Nat) (key : Option Nat)
    (mode : Nat) : Fiber :=
  { tag := tag, key := key, mode := mode
    elementType := 0, type := 0, stateNode := 0
    pendingProps := pendingProps
    flags := NoFlags, subtreeFlags := NoFlags, deletions := none
    childLanes := NoLanes, lanes := NoLanes
    child := none, sibling := none, index := 0
    memoizedProps := 0, memoizedState := 0, updateQueue := 0
    dependencies := none, ref := 0, refCleanup := 0 }

/-- Source `createWorkInProgress(current, pendingProps)`. -/
def createWorkInProgress (current : Fiber) (currentAlternate : Option Fiber)
    (pendingProps : Nat) : Fiber :=
  let workInProgress :=
    match currentAlternate with
    | none =>
        let wip := createFiber current.tag pendingProps current.key current.mode
        { wip with
          elementType := current.elementType
          type := current.type
          stateNode := current.stateNode }
    | some wip =>
        { wip with
          pendingProps := pendingProps
          type := current.type
          flags := NoFlags
          subtreeFlags := NoFlags
          deletions := none }
  { workInProgress with
    flags := current.flags &&& StaticMask
    childLanes := current.childLanes
    lanes := current.lanes
    child := current.child
    memoizedProps := current.memoizedProps
    memoizedState := current.memoizedState
    updateQueue := current.updateQueue
    dependencies := current.dependencies
    sibling := current.sibling
    index := current.index
    ref := current.ref
    refCleanup := current.refCleanup }

/-! ## Concrete inputs for witnesses and counterexamples -/

def wProps : JSVal := .jobj []

def wFiber : FiberView :=
  { flags := NoFlags, lanes := NoLanes, memoizedState := .jobj [] }

def wUpd1 : Update :=
  { lane := 0b1, tag := UpdateState, payload := .pval (.jobj [(0, 1)]),
    callback := none }

def wUpd2 : Update :=
  { lane := 0b10, tag := UpdateState, payload := .pval (.jobj [(0, 2), (1, 7)]),
    callback := none }

def wUpd3 : Update :=
  { lane := 0b1, tag := ReplaceState, payload := .pval (.jobj [(2, 9)]),
    callback := some 3 }

def wQueue : UpdateQueue :=
  { baseState := .jobj [(0, 0)], baseUpdates := [wUpd1], pending := [wUpd2],
    callbacks := [] }

def wEmptyQueue : UpdateQueue :=
  { baseState := .jobj [(0, 4)], baseUpdates := [], pending := [],
    callbacks := [9] }

/-- A hidden (OffscreenLane-tagged) update that gets skipped: its clone's
lane differs from its own lane. -/
def cexHiddenUpdate : Update :=
  { lane := OffscreenLane ||| 0b10, tag := UpdateState,
    payload := .pval (.jobj [(0, 1)]), callback := some 5 }

def cexQueue : UpdateQueue :=
  { baseState := .jobj [], baseUpdates := [cexHiddenUpdate], pending := [],
    callbacks := [] }

def wCurrent : Fiber :=
  { createFiber 1 10 (some 2) 3 with
    flags := StaticMask ||| Callback, subtreeFlags := Visibility
    deletions := some [4], childLanes := 5, lanes := 6, child := some 7
    memoizedProps := 8, memoizedState := 9, updateQueue := 11
    dependencies := some (12, 13), sibling := some 14, index := 15
    ref := 16, refCleanup := 17 }

def wAlternate : Fiber :=
  { createFiber 1 20 (some 2) 3 with
    flags := DidCapture, subtreeFlags := Callback, deletions := some [21] }

def wEnqState : EnqState :=
  { updateQueue := some wEmptyQueue, fiberLanes := 0b100,
    alternateLanes := some 0b1000, ancestorChildLanes := [0, 0b100]
    hasHostRoot := true, concurrentQueues := [],
    concurrentlyUpdatedLanes := NoLanes }

def wUnmountedState : EnqState :=
  { updateQueue := none, fiberLanes := 0b1, alternateLanes := none,
    ancestorChildLanes := [0], hasHostRoot := true, concurrentQueues := [],
    concurrentlyUpdatedLanes := NoLanes }

/-! ## Helper lemmas about the update-queue loop -/

theorem getStateFromUpdate_state (flags : Flags) (hasForceUpdate : Bool)
    (u : Update) (prevState nextProps : JSVal) :
    (getStateFromUpdate flags hasForceUpdate u prevState nextProps).2.2 =
      stateOfUpdate nextProps prevState u := by
  unfold stateOfUpdate getStateFromUpdate
  split_ifs <;> first | rfl | (cases u.payload <;> rfl)

theorem stateOfUpdate_cloneSkipped (nextProps s : JSVal) (u : Update) :
    stateOfUpdate nextProps s (cloneSkipped u) = stateOfUpdate nextProps s u := rfl

theorem stateOfUpdate_cloneApplied (nextProps s : JSVal) (u : Update) :
    stateOfUpdate nextProps s (cloneApplied u) = stateOfUpdate nextProps s u := rfl

theorem stepUpdate_newState (nextProps : JSVal) (r w : Lanes) (e : Lane)
    (st : LoopSt) (u : Update) :
    (stepUpdate nextProps r w e st u).newState =
      if shouldSkipUpdate r w u then st.newState
      else stateOfUpdate nextProps st.newState u := by
  unfold stepUpdate
  cases hs : shouldSkipUpdate r w u
  · simp only [hs, Bool.false_eq_true, if_false]
    cases u.callback <;>
      split_ifs <;>
        simp [getStateFromUpdate_state]
  · simp only [hs, if_true]
    split_ifs <;> rfl

theorem stepUpdate_newBaseUpdates (nextProps : JSVal) (r w : Lanes) (e : Lane)
    (st : LoopSt) (u : Update) :
    (stepUpdate nextProps r w e st u).newBaseUpdates =
      if shouldSkipUpdate r w u then st.newBaseUpdates ++ [cloneSkipped u]
      else if st.newBaseUpdates.isEmpty then st.newBaseUpdates
      else st.newBaseUpdates ++ [cloneApplied u] := by
  unfold stepUpdate
  cases hs : shouldSkipUpdate r w u
  · simp only [hs, Bool.false_eq_true, if_false]
    cases u.callback <;>
      split_ifs <;>
        simp_all
  · simp only [hs, if_true]
    cases hb : st.newBaseUpdates.isEmpty
    · simp [hb]
    · simp only [hb, if_true]
      have : st.newBaseUpdates = [] := by
        cases h : st.newBaseUpdates
        · rfl
        · rw [h] at hb; simp at hb
      simp [this]

theorem stepUpdate_newBaseState (nextProps : JSVal) (r w : Lanes) (e : Lane)
    (st : LoopSt) (u : Update) :
    (stepUpdate nextProps r w e st u).newBaseState =
      if shouldSkipUpdate r w u && st.newBaseUpdates.isEmpty then some st.newState
      else st.newBaseState := by
  unfold stepUpdate
  cases hs : shouldSkipUpdate r w u
  · simp only [hs, Bool.false_eq_true, if_false, Bool.false_and]
    cases u.callback <;>
      split_ifs <;>
        simp_all
  · simp only [hs, if_true, Bool.true_and]
    cases hb : st.newBaseUpdates.isEmpty <;> simp [hb]

theorem stepUpdate_loopInv (nextProps : JSVal) (r w : Lanes) (e : Lane)
    (st : LoopSt) (u : Update) (h : loopInv st) :
    loopInv (stepUpdate nextProps r w e st u) := by
  unfold loopInv at *
  rw [stepUpdate_newBaseUpdates, stepUpdate_newBaseState]
  cases hs : shouldSkipUpdate r w u <;>
    cases hb : st.newBaseUpdates <;>
      cases hn : st.newBaseState <;>
        simp_all

theorem applyUpdates_append (nextProps : JSVal) (s : JSVal)
    (l1 l2 : List Update) :
    applyUpdates nextProps s (l1 ++ l2) =
      applyUpdates nextProps (applyUpdates nextProps s l1) l2 := by
  unfold applyUpdates
  rw [List.foldl_append]

theorem stepUpdate_baseReplay (nextProps : JSVal) (r w : Lanes) (e : Lane)
    (st : LoopSt) (u : Update) (h : loopInv st) :
    baseReplay nextProps (stepUpdate nextProps r w e st u) =
      stateOfUpdate nextProps (baseReplay nextProps st) u := by
  unfold baseReplay loopBase loopInv at *
  rw [stepUpdate_newState, stepUpdate_newBaseUpdates, stepUpdate_newBaseState]
  cases hs : shouldSkipUpdate r w u <;>
    cases hb : st.newBaseUpdates <;>
      cases hn : st.newBaseState <;>
        simp_all [applyUpdates_append, applyUpdates,
          stateOfUpdate_cloneSkipped, stateOfUpdate_cloneApplied]

theorem foldl_loopInv (nextProps : JSVal) (r w : Lanes) (e : Lane)
    (us : List Update) (st : LoopSt) (h : loopInv st) :
    loopInv (List.foldl (stepUpdate nextProps r w e) st us) := by
  induction us generalizing st with
  | nil => exact h
  | cons u rest ih =>
      rw [List.foldl_cons]
      exact ih _ (stepUpdate_loopInv nextProps r w e st u h)

theorem foldl_baseReplay (nextProps : JSVal) (r w : Lanes) (e : Lane)
    (us : List Update) (st : LoopSt) (h : loopInv st) :
    baseReplay nextProps (List.foldl (stepUpdate nextProps r w e) st us) =
      applyUpdates nextProps (baseReplay nextProps st) us := by
  induction us generalizing st with
  | nil => rfl
  | cons u rest ih =>
      rw [List.foldl_cons, ih _ (stepUpdate_loopInv nextProps r w e st u h),
        stepUpdate_baseReplay nextProps r w e st u h]
      rfl

theorem foldl_newState_of_no_skip (nextProps : JSVal) (r w : Lanes) (e : Lane)
    (us : List Update) (st : LoopSt)
    (h : ∀ u ∈ us, shouldSkipUpdate r w u = false) :
    (List.foldl (stepUpdate nextProps r w e) st us).newState =
      applyUpdates nextProps st.newState us := by
  induction us generalizing st with
  | nil => rfl
  | cons u rest ih =>
      rw [List.foldl_cons]
      have hu : shouldSkipUpdate r w u = false := h u (List.mem_cons_self u rest)
      have hrest : ∀ v ∈ rest, shouldSkipUpdate r w v = false := by
        intro v hv
        exact h v (List.mem_cons_of_mem u hv)
      rw [ih _ hrest, stepUpdate_newState, hu]
      rfl

theorem foldl_newBaseUpdates (nextProps : JSVal) (r w : Lanes) (e : Lane)
    (us : List Update) (st : LoopSt) :
    (List.foldl (stepUpdate nextProps r w e) st us).newBaseUpdates =
      st.newBaseUpdates ++
        (if st.newBaseUpdates.isEmpty then rebaseBaseList r w us
         else rebaseTail r w us) := by
  induction us generalizing st with
  | nil =>
      cases hb : st.newBaseUpdates.isEmpty <;>
        simp [rebaseBaseList, rebaseTail]
  | cons u rest ih =>
      rw [List.foldl_cons, ih]
      rw [stepUpdate_newBaseUpdates]
      cases hs : shouldSkipUpdate r w u <;>
        cases hb : st.newBaseUpdates <;>
          simp_all [rebaseBaseList, rebaseTail]

theorem foldl_loopBase (nextProps : JSVal) (r w : Lanes) (e : Lane)
    (us : List Update) (st : LoopSt) (h : loopInv st) :
    loopBase (List.foldl (stepUpdate nextProps r w e) st us) =
      if st.newBaseUpdates.isEmpty then
        rebaseBaseState nextProps r w st.newState us
      else loopBase st := by
  induction us generalizing st with
  | nil =>
      cases hb : st.newBaseUpdates.isEmpty <;>
        simp_all [loopBase, rebaseBaseState]
  | cons u rest ih =>
      rw [List.foldl_cons, ih _ (stepUpdate_loopInv nextProps r w e st u h)]
      unfold loopInv at h
      unfold loopBase
      rw [stepUpdate_newState, stepUpdate_newBaseUpdates, stepUpdate_newBaseState]
      cases hs : shouldSkipUpdate r w u <;>
        cases hb : st.newBaseUpdates <;>
          cases hn : st.newBaseState <;>
            simp_all [rebaseBaseState]

theorem shouldSkipUpdate_cloneSkipped (r w : Lanes) (u : Update) :
    shouldSkipUpdate r w (cloneSkipped u) =
      !(isSubsetOfLanes r (removeLanes u.lane OffscreenLane)) := by
  unfold shouldSkipUpdate cloneSkipped
  simp [removeLanes_idem]

theorem shouldSkipUpdate_cloneApplied (r w : Lanes) (u : Update) :
    shouldSkipUpdate r w (cloneApplied u) = false := by
  unfold shouldSkipUpdate cloneApplied
  simp only [NoLane]
  have h0 : removeLanes 0 OffscreenLane = 0 := by
    unfold removeLanes
    simp
  simp [h0, isSubsetOfLanes_zero]

theorem mem_rebaseTail {r w : Lanes} {v : Update} {us : List Update}
    (h : v ∈ rebaseTail r w us) :
    ∃ u ∈ us, (shouldSkipUpdate r w u = true ∧ v = cloneSkipped u)
      ∨ v = cloneApplied u := by
  unfold rebaseTail at h
  obtain ⟨u, hu, hv⟩ := List.mem_map.mp h
  refine ⟨u, hu, ?_⟩
  by_cases hs : shouldSkipUpdate r w u = true
  · rw [if_pos hs] at hv
    exact Or.inl ⟨hs, hv.symm⟩
  · rw [if_neg hs] at hv
    exact Or.inr hv.symm

theorem mem_rebaseBaseList {r w : Lanes} {v : Update} {us : List Update}
    (h : v ∈ rebaseBaseList r w us) :
    ∃ u ∈ us, (shouldSkipUpdate r w u = true ∧ v = cloneSkipped u)
      ∨ v = cloneApplied u := by
  induction us with
  | nil => simp [rebaseBaseList] at h
  | cons u rest ih =>
      unfold rebaseBaseList at h
      by_cases hs : shouldSkipUpdate r w u = true
      · rw [if_pos hs] at h
        rcases List.mem_cons.mp h with hv | hv
        · exact ⟨u, List.mem_cons_self u rest, Or.inl ⟨hs, hv⟩⟩
        · obtain ⟨x, hx, hvx⟩ := mem_rebaseTail hv
          exact ⟨x, List.mem_cons_of_mem u hx, hvx⟩
      · rw [if_neg hs] at h
        obtain ⟨x, hx, hvx⟩ := ih h
        exact ⟨x, List.mem_cons_of_mem u hx, hvx⟩

theorem no_skip_in_rebase {r1 w1 r2 w2 : Lanes} {us : List Update}
    (h2 : ∀ u ∈ us, shouldSkipUpdate r1 w1 u = true →
      isSubsetOfLanes r2 (removeLanes u.lane OffscreenLane) = true) :
    ∀ v ∈ rebaseBaseList r1 w1 us, shouldSkipUpdate r2 w2 v = false := by
  intro v hv
  obtain ⟨u, hu, ⟨hs, hvu⟩ | hvu⟩ := mem_rebaseBaseList hv
  · rw [hvu, shouldSkipUpdate_cloneSkipped, h2 u hu hs]
    rfl
  · rw [hvu, shouldSkipUpdate_cloneApplied]

theorem processUpdateQueue_pending (fiber : FiberView) (queue : UpdateQueue)
    (nextProps : JSVal) (r w : Lanes) (e : Lane) (extra : List Update) :
    (processUpdateQueue fiber queue nextProps r w e extra).queue.pending = [] := by
  unfold processUpdateQueue
  cases hne : (queue.baseUpdates ++ queue.pending).isEmpty <;> simp [hne]

theorem processUpdateQueue_queue_char (fiber : FiberView) (queue : UpdateQueue)
    (nextProps : JSVal) (r w : Lanes) (e : Lane) :
    (processUpdateQueue fiber queue nextProps r w e []).queue.baseUpdates =
      rebaseBaseList r w (queue.baseUpdates ++ queue.pending)
    ∧ (processUpdateQueue fiber queue nextProps r w e []).queue.baseState =
      rebaseBaseState nextProps r w queue.baseState
        (queue.baseUpdates ++ queue.pending) := by
  unfold processUpdateQueue
  cases hne : (queue.baseUpdates ++ queue.pending).isEmpty
  · simp only [hne, Bool.false_eq_true, if_false, List.foldl_nil]
    constructor
    · rw [foldl_newBaseUpdates]
      simp [rebaseBaseList]
    · have h0 : loopInv
          { newState := queue.baseState, newLanes := NoLanes,
            newBaseState := none, newBaseUpdates := [],
            flags := fiber.flags, hasForceUpdate := false,
            didReadFromEntangledAsyncAction := false,
            callbacks := queue.callbacks } := rfl
      have := foldl_loopBase nextProps r w e
        (queue.baseUpdates ++ queue.pending) _ h0
      unfold loopBase at this
      simp only [List.isEmpty_nil, if_true] at this
      exact this
  · have hb : queue.baseUpdates = [] ∧ queue.pending = [] := by
      cases hm : queue.baseUpdates ++ queue.pending
      · exact List.append_eq_nil.mp hm
      · rw [hm] at hne; simp at hne
    simp [hne, hb.1, hb.2, rebaseBaseList, rebaseBaseState]

theorem processUpdateQueue_replay (fiber : FiberView) (queue : UpdateQueue)
    (nextProps : JSVal) (r w : Lanes) (e : Lane) :
    applyUpdates nextProps
        (processUpdateQueue fiber queue nextProps r w e []).queue.baseState
        (processUpdateQueue fiber queue nextProps r w e []).queue.baseUpdates =
      applyUpdates nextProps queue.baseState
        (queue.baseUpdates ++ queue.pending) := by
  unfold processUpdateQueue
  cases hne : (queue.baseUpdates ++ queue.pending).isEmpty
  · simp only [hne, Bool.false_eq_true, if_false, List.foldl_nil]
    have h0 : loopInv
        { newState := queue.baseState, newLanes := NoLanes,
          newBaseState := none, newBaseUpdates := [],
          flags := fiber.flags, hasForceUpdate := false,
          didReadFromEntangledAsyncAction := false,
          callbacks := queue.callbacks } := rfl
    have hrep := foldl_baseReplay nextProps r w e
      (queue.baseUpdates ++ queue.pending) _ h0
    unfold baseReplay loopBase at hrep
    simp only [List.isEmpty_nil, if_true, applyUpdates, List.foldl_nil] at hrep
    exact hrep
  · have hb : queue.baseUpdates = [] ∧ queue.pending = [] := by
      cases hm : queue.baseUpdates ++ queue.pending
      · exact List.append_eq_nil.mp hm
      · rw [hm] at hne; simp at hne
    simp [hne, hb.1, hb.2, applyUpdates]

theorem processUpdateQueue_base_eq_memo (fiber : FiberView) (queue : UpdateQueue)
    (nextProps : JSVal) (r w : Lanes) (e : Lane)
    (hne : (queue.baseUpdates ++ queue.pending).isEmpty = false)
    (hbs : (processUpdateQueue fiber queue nextProps r w e []).queue.baseUpdates = []) :
    (processUpdateQueue fiber queue nextProps r w e []).fiber.memoizedState =
      (processUpdateQueue fiber queue nextProps r w e []).queue.baseState := by
  unfold processUpdateQueue at *
  simp only [hne, Bool.false_eq_true, if_false, List.foldl_nil] at *
  rw [hbs]
  simp

theorem processUpdateQueue_memo_no_skip (fiber : FiberView) (queue : UpdateQueue)
    (nextProps : JSVal) (r w : Lanes) (e : Lane)
    (hns : ∀ u ∈ queue.baseUpdates ++ queue.pending,
      shouldSkipUpdate r w u = false) :
    (processUpdateQueue fiber queue nextProps r w e []).fiber.memoizedState =
      if (queue.baseUpdates ++ queue.pending).isEmpty then fiber.memoizedState
      else applyUpdates nextProps queue.baseState
        (queue.baseUpdates ++ queue.pending) := by
  unfold processUpdateQueue
  cases hne : (queue.baseUpdates ++ queue.pending).isEmpty
  · simp only [hne, Bool.false_eq_true, if_false, List.foldl_nil]
    rw [foldl_newState_of_no_skip nextProps r w e _ _ hns]
  · simp [hne]

/-! ## Claim theorems for the update queue -/

/-- C10: draining an empty queue is a no-op — when `shared.pending` and
`firstBaseUpdate` are both empty, `processUpdateQueue` leaves the fiber's
`memoizedState`, `lanes` and `flags` and the queue's `baseState`, base
pointers and callbacks unchanged (and never calls
`markSkippedUpdateLanes`). -/
theorem processUpdateQueue_empty_noop (fiber : FiberView) (queue : UpdateQueue)
    (nextProps : JSVal) (renderLanes wipRootRenderLanes : Lanes) (e : Lane)
    (hp : queue.pending = []) (hb : queue.baseUpdates = []) :
    (processUpdateQueue fiber queue nextProps renderLanes wipRootRenderLanes
        e []).fiber = fiber
    ∧ (processUpdateQueue fiber queue nextProps renderLanes wipRootRenderLanes
        e []).queue = queue
    ∧ (processUpdateQueue fiber queue nextProps renderLanes wipRootRenderLanes
        e []).markSkippedUpdateLanes = none := by
  obtain ⟨bS, bU, pnd, cbs⟩ := queue
  dsimp only at hp hb
  subst hp
  subst hb
  simp [processUpdateQueue]

theorem processUpdateQueue_empty_noop_witness :
    wEmptyQueue.pending = [] ∧ wEmptyQueue.baseUpdates = []
    ∧ ((processUpdateQueue wFiber wEmptyQueue wProps 3 0 0 []).fiber = wFiber
      ∧ (processUpdateQueue wFiber wEmptyQueue wProps 3 0 0 []).queue = wEmptyQueue
      ∧ (processUpdateQueue wFiber wEmptyQueue wProps 3 0 0
          []).markSkippedUpdateLanes = none) :=
  ⟨rfl, rfl, processUpdateQueue_empty_noop wFiber wEmptyQueue wProps 3 0 0 rfl rfl⟩

/-- C2 counterexample: a hidden update (its lane contains `OffscreenLane`)
that gets skipped is cloned with `lane = updateLane` (the OffscreenLane
bit removed), not with its own lane: the claim's "skipped updates are
cloned keeping their lane" fails on this input. -/
theorem processUpdateQueue_clone_lane_cex :
    ((processUpdateQueue wFiber cexQueue wProps NoLanes NoLanes NoLane
        []).queue.baseUpdates.map fun u => u.lane) = [0b10]
    ∧ cexHiddenUpdate.lane ≠ 0b10 := by
  constructor
  · rfl
  · decide

/-- C2 (amended): an update in the (spliced) base list is skipped exactly
when `shouldSkipUpdate` of the source holds — hidden updates check
`updateLane ⊆ wipRootRenderLanes`, others `updateLane ⊆ renderLanes`,
where `updateLane = removeLanes(update.lane, OffscreenLane)`; the new base
list consists of everything from the first skipped update onward, skipped
updates cloned with `lane = updateLane` (their lane minus OffscreenLane —
unchanged for non-hidden updates) and their callback kept, applied updates
cloned with `lane = NoLane` and `callback = null`; the new base state is
the state accumulated up to the first skipped update. -/
theorem processUpdateQueue_skip_and_clone (fiber : FiberView)
    (queue : UpdateQueue) (nextProps : JSVal)
    (renderLanes wipRootRenderLanes : Lanes) (e : Lane) :
    (processUpdateQueue fiber queue nextProps renderLanes wipRootRenderLanes
        e []).queue.baseUpdates =
      rebaseBaseList renderLanes wipRootRenderLanes
        (queue.baseUpdates ++ queue.pending)
    ∧ (processUpdateQueue fiber queue nextProps renderLanes wipRootRenderLanes
        e []).queue.baseState =
      rebaseBaseState nextProps renderLanes wipRootRenderLanes
        queue.baseState (queue.baseUpdates ++ queue.pending) :=
  processUpdateQueue_queue_char fiber queue nextProps renderLanes
    wipRootRenderLanes e

/-- C7: updates appended to `shared.pending` while the drain is running
are spliced in by the re-check after the base list is exhausted and
processed in the same pass — the run is identical to one where they had
been in `shared.pending` from the start. -/
theorem processUpdateQueue_render_phase_visible (fiber : FiberView)
    (queue : UpdateQueue) (nextProps : JSVal)
    (renderLanes wipRootRenderLanes : Lanes) (e : Lane) (extra : List Update)
    (h : queue.baseUpdates ++ queue.pending ≠ []) :
    processUpdateQueue fiber queue nextProps renderLanes wipRootRenderLanes
        e extra =
      processUpdateQueue fiber { queue with pending := queue.pending ++ extra }
        nextProps renderLanes wipRootRenderLanes e [] := by
  have hne : (queue.baseUpdates ++ queue.pending).isEmpty = false := by
    cases hm : queue.baseUpdates ++ queue.pending <;> simp_all
  have hne2 : (queue.baseUpdates ++ (queue.pending ++ extra)).isEmpty = false := by
    rw [← List.append_assoc]
    cases hm : queue.baseUpdates ++ queue.pending <;> simp_all
  unfold processUpdateQueue
  simp only [hne, hne2, Bool.false_eq_true, if_false, List.foldl_nil]
  rw [← List.foldl_append, List.append_assoc]

theorem processUpdateQueue_render_phase_visible_witness :
    wQueue.baseUpdates ++ wQueue.pending ≠ []
    ∧ processUpdateQueue wFiber wQueue wProps 3 0 0 [wUpd3] =
        processUpdateQueue wFiber
          { wQueue with pending := wQueue.pending ++ [wUpd3] } wProps 3 0 0 [] :=
  have h : wQueue.baseUpdates ++ wQueue.pending ≠ [] := by
    simp [wQueue]
  ⟨h, processUpdateQueue_render_phase_visible wFiber wQueue wProps 3 0 0
    [wUpd3] h⟩

/-- C1: rebase idempotence — process the queue once at `(r1, w1)` (which
may skip updates), then process the surviving base list when the skipped
lanes render: at any lanes `(r2, w2)` that cover the update lane of every
update the first render skipped (the already-applied updates were rebased
with `lane = NoLane`, so `r2` need not cover them); the final
`memoizedState` equals the one produced by a single render at lanes
`(rAll, wAll)` that skip nothing. -/
theorem processUpdateQueue_rebase_idempotent (fiber : FiberView)
    (queue : UpdateQueue) (nextProps : JSVal)
    (r1 w1 r2 w2 rAll wAll : Lanes) (e1 e2 eAll : Lane)
    (h2 : ∀ u ∈ queue.baseUpdates ++ queue.pending,
        shouldSkipUpdate r1 w1 u = true →
        isSubsetOfLanes r2 (removeLanes u.lane OffscreenLane) = true)
    (hAll : ∀ u ∈ queue.baseUpdates ++ queue.pending,
        shouldSkipUpdate rAll wAll u = false) :
    (processUpdateQueue
        (processUpdateQueue fiber queue nextProps r1 w1 e1 []).fiber
        (processUpdateQueue fiber queue nextProps r1 w1 e1 []).queue
        nextProps r2 w2 e2 []).fiber.memoizedState =
      (processUpdateQueue fiber queue nextProps rAll wAll
        eAll []).fiber.memoizedState := by
  by_cases hempty : queue.baseUpdates ++ queue.pending = []
  · obtain ⟨hb1, hb2⟩ := List.append_eq_nil.mp hempty
    simp [processUpdateQueue, hb1, hb2]
  · have hne : (queue.baseUpdates ++ queue.pending).isEmpty = false := by
      cases hm : queue.baseUpdates ++ queue.pending <;> simp_all
    have hchar := processUpdateQueue_queue_char fiber queue nextProps r1 w1 e1
    have hpend := processUpdateQueue_pending fiber queue nextProps r1 w1 e1 []
    have hreplay := processUpdateQueue_replay fiber queue nextProps r1 w1 e1
    have hns2 : ∀ v ∈
        (processUpdateQueue fiber queue nextProps r1 w1 e1 []).queue.baseUpdates
          ++ (processUpdateQueue fiber queue nextProps r1 w1
                e1 []).queue.pending,
        shouldSkipUpdate r2 w2 v = false := by
      rw [hpend, List.append_nil, hchar.1]
      exact no_skip_in_rebase h2
    rw [processUpdateQueue_memo_no_skip _ _ nextProps r2 w2 e2 hns2,
      processUpdateQueue_memo_no_skip fiber queue nextProps rAll wAll eAll hAll]
    simp only [hne, Bool.false_eq_true, if_false]
    by_cases hbs1 :
        (processUpdateQueue fiber queue nextProps r1 w1
          e1 []).queue.baseUpdates = []
    · have hiE : ((processUpdateQueue fiber queue nextProps r1 w1
          e1 []).queue.baseUpdates ++ (processUpdateQueue fiber queue nextProps
            r1 w1 e1 []).queue.pending).isEmpty = true := by
        rw [hbs1, hpend]
        rfl
      simp only [hiE, if_true]
      rw [processUpdateQueue_base_eq_memo fiber queue nextProps r1 w1 e1
        hne hbs1]
      have hr := hreplay
      rw [hbs1] at hr
      simpa [applyUpdates] using hr
    · have hbsE : (processUpdateQueue fiber queue nextProps r1 w1
          e1 []).queue.baseUpdates.isEmpty = false := by
        cases hm : (processUpdateQueue fiber queue nextProps r1 w1
          e1 []).queue.baseUpdates <;> simp_all
      simp only [hpend, List.append_nil, hbsE, Bool.false_eq_true, if_false]
      exact hreplay

theorem processUpdateQueue_rebase_idempotent_witness :
    (∀ u ∈ wQueue.baseUpdates ++ wQueue.pending,
        shouldSkipUpdate 2 0 u = true →
        isSubsetOfLanes 1 (removeLanes u.lane OffscreenLane) = true)
    ∧ (∀ u ∈ wQueue.baseUpdates ++ wQueue.pending,
        shouldSkipUpdate 3 0 u = false)
    ∧ (processUpdateQueue
        (processUpdateQueue wFiber wQueue wProps 2 0 0 []).fiber
        (processUpdateQueue wFiber wQueue wProps 2 0 0 []).queue
        wProps 1 0 0 []).fiber.memoizedState =
      (processUpdateQueue wFiber wQueue wProps 3 0
        0 []).fiber.memoizedState :=
  have h2 : ∀ u ∈ wQueue.baseUpdates ++ wQueue.pending,
      shouldSkipUpdate 2 0 u = true →
      isSubsetOfLanes 1 (removeLanes u.lane OffscreenLane) = true := by
    intro u hu
    rcases List.mem_cons.mp hu with h | h
    · rw [h]; decide
    · rcases List.mem_cons.mp h with h1 | h1
      · rw [h1]; decide
      · simp at h1
  have hAll : ∀ u ∈ wQueue.baseUpdates ++ wQueue.pending,
      shouldSkipUpdate 3 0 u = false := by
    intro u hu
    rcases List.mem_cons.mp hu with h | h
    · rw [h]; decide
    · rcases List.mem_cons.mp h with h1 | h1
      · rw [h1]; decide
      · simp at h1
  ⟨h2, hAll, processUpdateQueue_rebase_idempotent wFiber wQueue wProps
    2 0 1 0 3 0 0 0 0 h2 hAll⟩

/-! ## Claim theorems for `createWorkInProgress` -/

theorem land_land_self (a b : Nat) : (a &&& b) &&& b = a &&& b := by
  apply Nat.eq_of_testBit_eq
  intro i
  simp only [Nat.testBit_and]
  cases a.testBit i <;> cases b.testBit i <;> rfl

theorem removeLanes_land_right (a b : Nat) : removeLanes (a &&& b) b = 0 := by
  unfold removeLanes
  rw [land_land_self, Nat.xor_self]

/-- C6: static-mask persistence — in both branches of
`createWorkInProgress` the returned fiber satisfies
`(wip.flags & StaticMask) == (current.flags & StaticMask)`, and when the
alternate is reused, `subtreeFlags` and `deletions` are cleared and no
non-static flag bit survives. -/
theorem createWorkInProgress_static_mask (current : Fiber)
    (currentAlternate : Option Fiber) (pendingProps : Nat) :
    (createWorkInProgress current currentAlternate pendingProps).flags &&&
        StaticMask = current.flags &&& StaticMask
    ∧ (currentAlternate.isSome = true →
        (createWorkInProgress current currentAlternate
            pendingProps).subtreeFlags = NoFlags
        ∧ (createWorkInProgress current currentAlternate
            pendingProps).deletions = none
        ∧ removeLanes (createWorkInProgress current currentAlternate
            pendingProps).flags StaticMask = NoFlags) := by
  unfold createWorkInProgress
  cases currentAlternate with
  | none =>
      refine ⟨land_land_self current.flags StaticMask, ?_⟩
      intro h
      simp at h
  | some alt =>
      refine ⟨land_land_self current.flags StaticMask, fun _ => ⟨rfl, rfl, ?_⟩⟩
      exact removeLanes_land_right current.flags StaticMask

theorem createWorkInProgress_static_mask_witness :
    (createWorkInProgress wCurrent (some wAlternate) 42).flags &&& StaticMask =
        wCurrent.flags &&& StaticMask
    ∧ ((createWorkInProgress wCurrent (some wAlternate) 42).subtreeFlags = NoFlags
       ∧ (createWorkInProgress wCurrent (some wAlternate) 42).deletions = none
       ∧ removeLanes (createWorkInProgress wCurrent (some wAlternate) 42).flags
           StaticMask = NoFlags) :=
  ⟨(createWorkInProgress_static_mask wCurrent (some wAlternate) 42).1,
   (createWorkInProgress_static_mask wCurrent (some wAlternate) 42).2 rfl⟩

/-! ## Claim theorems for the work loop entry and mode selection -/

/-- C8: `performWorkOnRoot` throws "Should not already be working." exactly
when the execution context already contains `RenderContext` or
`CommitContext`; under the precondition the error branch is
unreachable. -/
theorem performWorkOnRoot_nested_entry (executionContext : Nat) :
    performWorkOnRootGuard executionContext =
        Except.error shouldNotAlreadyBeWorking
      ↔ executionContext &&& (RenderContext ||| CommitContext) ≠ NoContext := by
  unfold performWorkOnRootGuard
  by_cases h : executionContext &&& (RenderContext ||| CommitContext) = NoContext
  · simp [h]
  · simp [h]

/-- C5 counterexample: with the sibling-prerendering feature enabled on a
prerendering root, `performWorkOnRoot` picks the concurrent (time-sliced)
loop even though `forceSync` is `true`, contradicting the claimed
if-and-only-if. -/
theorem shouldTimeSlice_claim_cex :
    performWorkOnRootMode true false false true true = RenderMode.concurrent
    ∧ shouldTimeSliceClaim true false false = false := by
  decide

/-- C5 (amended): the render is time-sliced iff the claim's condition
(`!forceSync && !includesBlockingLane && !includesExpiredLane`) holds or
the prerendering disjunct
(`enableSiblingPrerendering && checkIfRootIsPrerendering`) fires;
otherwise it runs synchronously. -/
theorem performWorkOnRootMode_characterization :
    ∀ forceSync includesBlockingLane includesExpiredLane
        enableSiblingPrerendering checkIfRootIsPrerendering : Bool,
      performWorkOnRootMode forceSync includesBlockingLane includesExpiredLane
          enableSiblingPrerendering checkIfRootIsPrerendering =
          RenderMode.concurrent
        ↔ (shouldTimeSliceClaim forceSync includesBlockingLane
              includesExpiredLane = true
           ∨ (enableSiblingPrerendering && checkIfRootIsPrerendering) = true) := by
  decide

/-! ## Claim theorems for the sync flush -/

/-- C3 counterexample: when passive effects were pending,
`performSyncWorkOnRoot` flushes them and returns without performing the
sync render — no `performWorkOnRoot` call happens in the same call. -/
theorem performSyncWorkOnRoot_skips_render_cex :
    (performSyncWorkOnRoot { pendingPassiveEffects := true } 7 0b10).2 =
      [SyncEvent.flushPassiveEffects]
    ∧ ((performSyncWorkOnRoot { pendingPassiveEffects := true } 7
        0b10).2.any isPerformWorkEvent) = false := by
  decide

/-- C3 (amended): `performSyncWorkOnRoot` performs the sync render in the
same call iff the passive-effect flush did nothing; in that case it calls
`performWorkOnRoot(root, lanes, forceSync = true)`.  When the flush did
work it returns immediately (the surrounding
`flushSyncWorkAcrossRoots_impl` loop rescans). -/
theorem performSyncWorkOnRoot_render_iff (s : SyncWorkState) (rootId : Nat)
    (lanes : Lanes) :
    ((performSyncWorkOnRoot s rootId lanes).2.any isPerformWorkEvent
        = !s.pendingPassiveEffects)
    ∧ (s.pendingPassiveEffects = false →
        (performSyncWorkOnRoot s rootId lanes).2 =
          [SyncEvent.performWorkOnRoot rootId lanes true]) := by
  obtain ⟨b⟩ := s
  cases b <;>
    simp [performSyncWorkOnRoot, flushPendingEffects, isPerformWorkEvent]

theorem performSyncWorkOnRoot_render_iff_witness :
    ((performSyncWorkOnRoot { pendingPassiveEffects := false } 7 2).2.any
        isPerformWorkEvent = !(false : Bool))
    ∧ (performSyncWorkOnRoot { pendingPassiveEffects := false } 7 2).2 =
        [SyncEvent.performWorkOnRoot 7 2 true] :=
  ⟨(performSyncWorkOnRoot_render_iff ⟨false⟩ 7 2).1,
   (performSyncWorkOnRoot_render_iff ⟨false⟩ 7 2).2 rfl⟩

/-! ## Claim theorems for the enqueue path -/

theorem foldl_finishStep_fields (entries : List (Update × Lane))
    (acc : EnqState) :
    (List.foldl finishStep acc entries).fiberLanes = acc.fiberLanes
    ∧ (List.foldl finishStep acc entries).alternateLanes = acc.alternateLanes
    ∧ (List.foldl finishStep acc entries).concurrentlyUpdatedLanes =
        acc.concurrentlyUpdatedLanes
    ∧ (List.foldl finishStep acc entries).ancestorChildLanes =
        acc.ancestorChildLanes.map
          (fun cl => List.foldl (fun c entry => mergeLanes c entry.2)
            cl entries) := by
  induction entries generalizing acc with
  | nil => simp
  | cons eh rest ih =>
      rw [List.foldl_cons]
      obtain ⟨h1, h2, h3, h4⟩ := ih (finishStep acc eh)
      refine ⟨?_, ?_, ?_, ?_⟩
      · rw [h1]; rfl
      · rw [h2]; rfl
      · rw [h3]; rfl
      · rw [h4]
        show (List.map (fun cl => mergeLanes cl eh.2)
            acc.ancestorChildLanes).map
            (fun cl => List.foldl (fun c entry => mergeLanes c entry.2)
              cl rest) = _
        rw [List.map_map]
        rfl

/-- C9: enqueue on an unmounted target is a silent no-op — with
`updateQueue = null` the `enqueueUpdate` of `src/unnamed/part_001` returns
`null` and mutates nothing: no queue change, no lane merging on the fiber
or its alternate, no childLanes change, no concurrent-queue record, and no
root for scheduling. -/
theorem enqueueUpdate_unmounted_noop (s : EnqState) (u : Update) (lane : Lane)
    (executionContext : Nat) (h : s.updateQueue = none) :
    enqueueUpdate s u lane executionContext = (none, s) := by
  unfold enqueueUpdate
  rw [h]

theorem enqueueUpdate_unmounted_noop_witness :
    wUnmountedState.updateQueue = none
    ∧ enqueueUpdate wUnmountedState (createUpdate 1) 1 0 =
        (none, wUnmountedState) :=
  ⟨rfl, enqueueUpdate_unmounted_noop wUnmountedState (createUpdate 1) 1 0 rfl⟩

/-- C4: an update enqueued with lane `L` on a mounted fiber outside the
render phase merges `L` into `fiber.lanes`, into `fiber.alternate.lanes`
when the alternate exists, and records `L` in the process-wide
`concurrentlyUpdatedLanes`; once the deferred
`finishQueueingConcurrentUpdates` drain runs (modelled from the spec), `L`
is also propagated into `childLanes` of every ancestor on the path to the
root. -/
theorem finishQueueing_fields (s : EnqState) :
    (finishQueueingConcurrentUpdates s).fiberLanes = s.fiberLanes
    ∧ (finishQueueingConcurrentUpdates s).alternateLanes = s.alternateLanes
    ∧ (finishQueueingConcurrentUpdates s).concurrentlyUpdatedLanes =
        s.concurrentlyUpdatedLanes
    ∧ (finishQueueingConcurrentUpdates s).ancestorChildLanes =
        s.ancestorChildLanes.map
          (fun cl => List.foldl (fun c entry => mergeLanes c entry.2)
            cl s.concurrentQueues) := by
  unfold finishQueueingConcurrentUpdates
  obtain ⟨h1, h2, h3, h4⟩ := foldl_finishStep_fields s.concurrentQueues s
  exact ⟨h1, h2, h3, h4⟩

theorem enqueueUpdate_concurrent_eq (s : EnqState) (q : UpdateQueue)
    (u : Update) (lane : Lane) (executionContext : Nat)
    (hq : s.updateQueue = some q)
    (hNotRender : isUnsafeClassRenderPhaseUpdate executionContext = false) :
    (enqueueUpdate s u lane executionContext).2 =
      { s with
        concurrentQueues := s.concurrentQueues ++ [(u, lane)]
        concurrentlyUpdatedLanes := mergeLanes s.concurrentlyUpdatedLanes lane
        fiberLanes := mergeLanes s.fiberLanes lane
        alternateLanes := s.alternateLanes.map fun al => mergeLanes al lane } := by
  unfold enqueueUpdate
  conv_lhs => rw [hq]
  simp only [hNotRender, Bool.false_eq_true, if_false]
  rfl

/-- C4: an update enqueued with lane `L` on a mounted fiber outside the
render phase merges `L` into `fiber.lanes`, into `fiber.alternate.lanes`
when the alternate exists, and records `L` in the process-wide
`concurrentlyUpdatedLanes`; once the deferred
`finishQueueingConcurrentUpdates` drain runs (modelled from the spec), `L`
is also propagated into `childLanes` of every ancestor on the path to the
root. -/
theorem enqueueUpdate_merges_and_propagates (s : EnqState) (u : Update)
    (lane : Lane) (executionContext : Nat)
    (hMounted : s.updateQueue.isSome = true)
    (hNotRender : isUnsafeClassRenderPhaseUpdate executionContext = false) :
    (finishQueueingConcurrentUpdates
        (enqueueUpdate s u lane executionContext).2).fiberLanes =
      mergeLanes s.fiberLanes lane
    ∧ (∀ al, s.alternateLanes = some al →
        (finishQueueingConcurrentUpdates
          (enqueueUpdate s u lane executionContext).2).alternateLanes =
          some (mergeLanes al lane))
    ∧ isSubsetOfLanes
        (finishQueueingConcurrentUpdates
          (enqueueUpdate s u lane
            executionContext).2).concurrentlyUpdatedLanes lane = true
    ∧ (∀ cl ∈ (finishQueueingConcurrentUpdates
          (enqueueUpdate s u lane executionContext).2).ancestorChildLanes,
        isSubsetOfLanes cl lane = true) := by
  cases hq : s.updateQueue with
  | none => rw [hq] at hMounted; simp at hMounted
  | some q =>
      rw [enqueueUpdate_concurrent_eq s q u lane executionContext hq hNotRender]
      obtain ⟨h1, h2, h3, h4⟩ := finishQueueing_fields
        { s with
          concurrentQueues := s.concurrentQueues ++ [(u, lane)]
          concurrentlyUpdatedLanes := mergeLanes s.concurrentlyUpdatedLanes lane
          fiberLanes := mergeLanes s.fiberLanes lane
          alternateLanes := s.alternateLanes.map fun al => mergeLanes al lane }
      refine ⟨h1, ?_, ?_, ?_⟩
      · intro al hal
        have key : s.alternateLanes.map (fun al => mergeLanes al lane) =
            some (mergeLanes al lane) := by
          rw [hal]
          rfl
        exact h2.trans key
      · rw [h3]
        exact isSubsetOfLanes_merge s.concurrentlyUpdatedLanes lane
      · intro cl hcl
        rw [h4] at hcl
        obtain ⟨c0, hc0, hfc⟩ := List.mem_map.mp hcl
        rw [← hfc]
        have key : isSubsetOfLanes
            (List.foldl (fun c entry => mergeLanes c entry.2) c0
              (s.concurrentQueues ++ [(u, lane)])) lane = true := by
          rw [List.foldl_append]
          exact isSubsetOfLanes_merge _ lane
        exact key

theorem enqueueUpdate_merges_and_propagates_witness :
    wEnqState.updateQueue.isSome = true
    ∧ isUnsafeClassRenderPhaseUpdate 0 = false
    ∧ ((finishQueueingConcurrentUpdates
          (enqueueUpdate wEnqState wUpd1 0b10 0).2).fiberLanes =
        mergeLanes wEnqState.fiberLanes 0b10
      ∧ (∀ al, wEnqState.alternateLanes = some al →
          (finishQueueingConcurrentUpdates
            (enqueueUpdate wEnqState wUpd1 0b10 0).2).alternateLanes =
            some (mergeLanes al 0b10))
      ∧ isSubsetOfLanes
          (finishQueueingConcurrentUpdates
            (enqueueUpdate wEnqState wUpd1 0b10
              0).2).concurrentlyUpdatedLanes 0b10 = true
      ∧ (∀ cl ∈ (finishQueueingConcurrentUpdates
            (enqueueUpdate wEnqState wUpd1 0b10 0).2).ancestorChildLanes,
          isSubsetOfLanes cl 0b10 = true)) :=
  ⟨rfl, rfl,
    enqueueUpdate_merges_and_propagates wEnqState wUpd1 0b10 0 rfl rfl⟩

end React
